import Mathlib

/-!
Verification of the working-set-size estimator (`wss` package), the machine
capacity/clock extractor (`machine` package) and the sysfs kernel port
(`sysfs` package) of this repository, via a shallow embedding in Lean.

Strings are modelled as `List Char` so that list lemmas apply directly.
Machine `uint64` arithmetic is modelled on `Nat` with explicit `% 2 ^ 64`.
The filesystem is modelled explicitly: a map from paths to contents plus
the sets of paths whose reads fail with a non-NotFound error and whose
writes fail after a successful open.
-/

/-- Strings as lists of characters (Go `string` / `[]byte`). -/
abbrev Str := List Char

/-- `2 ^ 64`, the modulus of Go `uint64` arithmetic. -/
def U64 : Nat := 2 ^ 64

/-- Outcome of reading a file: content, a NotFound error (`os.IsNotExist`),
or any other I/O error. -/
inductive ReadResult where
  | ok (content : Str)
  | notFound
  | ioErr
deriving DecidableEq, Repr

/-- Errors produced by the embedded operations.  In Go these are `error`
values built with `fmt.Errorf`; the constructors mirror the distinct
error sites of the source. -/
inductive GoErr where
  /-- `os.Open` / `ioutil.ReadFile` failure propagated verbatim;
  `notFound` records whether `os.IsNotExist` would hold. -/
  | openFail (path : Str) (notFound : Bool)
  /-- `"Not found any PID for %s cgroup"` in `Wss.getPids`. -/
  | noPids (cgroup : Str)
  /-- non-NotFound `ioutil.ReadFile` failure on a smaps file in `Wss.getReferenced`. -/
  | smapsRead (path : Str)
  /-- `strconv.ParseUint` failure in `Wss.getReferenced`. -/
  | parseFail
  /-- `"Incorrect of reset interval for wss"` in `Wss.clearReferenced`. -/
  | badResetInterval
  /-- `WriteString` failure on a clear_refs file in `Wss.clearReferenced`. -/
  | writeFail (path : Str)
  /-- `"failed to match regexp in output"` in `parseCapacity`. -/
  | capacityNoMatch
  /-- `strconv.ParseUint` failure in `parseCapacity`. -/
  | capacityParse
  /-- `"could not parse frequency"` in `GetClockSpeed`. -/
  | freqParse
  /-- `"could not detect clock speed from output"` in `GetClockSpeed`. -/
  | clockDetect
  /-- `filepath.ErrBadPattern` from `filepath.Glob`. -/
  | badPattern
  /-- `ioutil.ReadDir` failure on a missing directory. -/
  | dirMissing (path : Str)
deriving DecidableEq, Repr

/-- The filesystem: file contents, paths whose reads fail with a
non-NotFound error, and paths whose writes fail after a successful open. -/
structure Fs where
  files : List (Str × Str)
  ioErrPaths : List Str
  writeErrPaths : List Str
deriving DecidableEq, Repr

/-- Association-list lookup on paths. -/
def lookupFile : List (Str × Str) → Str → Option Str
  | [], _ => none
  | (q, c) :: t, p => if q = p then some c else lookupFile t p

/-- Replace the binding of path `p` (the write sites only touch files whose
open succeeded, so `p` is already bound). -/
def setFile : List (Str × Str) → Str → Str → List (Str × Str)
  | [], p, c => [(p, c)]
  | (q, d) :: t, p, c => if q = p then (p, c) :: t else (q, d) :: setFile t p c

/-- `ioutil.ReadFile` / `os.Open`. -/
def Fs.read (fs : Fs) (p : Str) : ReadResult :=
  if fs.ioErrPaths.contains p then .ioErr
  else
    match lookupFile fs.files p with
    | some c => .ok c
    | none => .notFound

/-- Overwrite the content of path `p` (a write at offset 0 through a
descriptor opened with `O_WRONLY` and no truncation). -/
def Fs.write (fs : Fs) (p : Str) (c : Str) : Fs :=
  { fs with files := setFile fs.files p c }

/-- A result together with the filesystem state after the call, so that
the write effects of an operation are visible even on its error paths. -/
inductive GoResult (α : Type) where
  | ok (a : α) (fs : Fs)
  | err (e : GoErr) (fs : Fs)
deriving DecidableEq

/-! ## wss package: the `Wss` working-set-size estimator (src/wss/wss.go) -/

/-- `Wss` struct of the `wss` package: cgroup path, measurement-cycle
counter and reset interval (both `uint64`). -/
structure Wss where
  CgroupCPUPath : Str
  Cycles : Nat
  ResetInterval : Nat
deriving DecidableEq, Repr

/-- `smapsFilePathPattern` applied to a PID: `/proc/%s/smaps`. -/
def smapsFilePath (pid : Str) : Str := "/proc/".toList ++ pid ++ "/smaps".toList

/-- `clearRefsFilePathPattern` applied to a PID: `/proc/%s/clear_refs`. -/
def clearRefsFilePath (pid : Str) : Str := "/proc/".toList ++ pid ++ "/clear_refs".toList

/-- `filepath.Join(w.CgroupCPUPath, cgroupProcfs)` for an already-clean
cgroup path. -/
def cgroupProcsPath (cgroupPath : Str) : Str := cgroupPath ++ "/cgroup.procs".toList

/-- Split on newline characters, never empty (`strings.Split`-like core of
the line scanner). -/
def splitNL : Str → List Str
  | [] => [[]]
  | c :: rest =>
    if c = '\n' then [] :: splitNL rest
    else
      match splitNL rest with
      | [] => [[c]]
      | l :: ls => (c :: l) :: ls

/-- `bufio.ScanLines` drops one trailing carriage return from each line. -/
def dropCR (l : Str) : Str := if l.getLast? = some '\r' then l.dropLast else l

/-- The lines produced by `bufio.Scanner` with `ScanLines`: split at
newlines, no empty final token for input ending in a newline, a trailing
`\r` stripped from each line. -/
def scanLines (cs : Str) : List Str :=
  let parts := splitNL cs
  (if parts.getLast? = some [] then parts.dropLast else parts).map dropCR

/-- `Wss.getPids`: read the cgroup's `cgroup.procs` file, scan its lines,
and fail when no PID is listed. -/
def getPids (w : Wss) (fs : Fs) : Except GoErr (List Str) :=
  match fs.read (cgroupProcsPath w.CgroupCPUPath) with
  | .ok content =>
    let pids := scanLines content
    if pids = [] then .error (.noPids w.CgroupCPUPath) else .ok pids
  | .notFound => .error (.openFail (cgroupProcsPath w.CgroupCPUPath) true)
  | .ioErr => .error (.openFail (cgroupProcsPath w.CgroupCPUPath) false)

/-! ### The `Referenced:\s*([0-9]+) kB` regular expression

Both this regexp and the capacity regexps of the machine package have the
shape: a literal, then `\s*`, then a captured nonempty digit run, then the
literal `" kB"`.  RE2 finds non-overlapping matches left to right, and the
digit run is maximal (it is greedy and the following pattern character,
a space, is not a digit). -/

/-- Strip a literal prefix from a character list. -/
def stripPrefixL : Str → Str → Option Str
  | [], cs => some cs
  | _ :: _, [] => none
  | p :: ps, c :: cs => if c = p then stripPrefixL ps cs else none

/-- RE2 whitespace class `\s` = `[\t\n\f\r ]`. -/
def isSpaceRE2 (c : Char) : Bool :=
  c = ' ' || c = '\t' || c = '\n' || c = '\x0c' || c = '\r'

/-- Try to match `lit` `\s*` `([0-9]+)` `" kB"` at the head of `cs`;
on success return the captured digit run and the remainder after the
match. -/
def tryFieldMatch (lit : Str) (cs : Str) : Option (Str × Str) :=
  match stripPrefixL lit cs with
  | none => none
  | some cs1 =>
    if ((cs1.dropWhile isSpaceRE2).takeWhile Char.isDigit) = [] then none
    else
      match stripPrefixL " kB".toList ((cs1.dropWhile isSpaceRE2).dropWhile Char.isDigit) with
      | none => none
      | some rest => some ((cs1.dropWhile isSpaceRE2).takeWhile Char.isDigit, rest)

/-- All captures of the field regexp, scanning left to right and resuming
after each match (`FindAllSubmatch(content, -1)`).  The fuel argument is
an upper bound on the scanned length; every step consumes at least one
character. -/
def findAllFieldsAux (lit : Str) : Nat → Str → List Str
  | 0, _ => []
  | _, [] => []
  | fuel + 1, c :: rest =>
    match tryFieldMatch lit (c :: rest) with
    | some (d, rem) => d :: findAllFieldsAux lit fuel rem
    | none => findAllFieldsAux lit fuel rest

/-- `regexp.FindAllSubmatch`: the captured digit runs of all matches. -/
def findAllFields (lit : Str) (cs : Str) : List Str :=
  findAllFieldsAux lit cs.length cs

/-- `regexp.FindSubmatch`: the captured digit run of the leftmost match. -/
def findFirstField (lit : Str) : Str → Option Str
  | [] => none
  | c :: rest =>
    match tryFieldMatch lit (c :: rest) with
    | some (d, _) => some d
    | none => findFirstField lit rest

/-- Numeric value of a digit run. -/
def digitsVal (d : Str) : Nat :=
  d.foldl (fun a c => a * 10 + (c.toNat - '0'.toNat)) 0

/-- `strconv.ParseUint(s, 10, 64)`: succeeds on a nonempty all-digit
string whose value fits in 64 bits. -/
def parseUint64 (d : Str) : Option Nat :=
  if d = [] then none
  else if d.all Char.isDigit then
    if digitsVal d < U64 then some (digitsVal d) else none
  else none

/-- The literal head of the `referencedRegexp`. -/
def referencedLit : Str := "Referenced:".toList

/-- Inner loop of `Wss.getReferenced` over the captures of one smaps
file: parse each capture and accumulate into the running `uint64` sum. -/
def sumCaps (acc : Nat) : List Str → Except GoErr Nat
  | [] => .ok acc
  | d :: rest =>
    match parseUint64 d with
    | none => .error .parseFail
    | some v => sumCaps ((acc + v) % U64) rest

/-- One iteration of `Wss.getReferenced`'s PID loop: read the PID's smaps
file, skip the PID on NotFound, abort on any other read error, otherwise
add all `Referenced:` captures to the accumulator.  (When there is no
match the Go code `continue`s, which adds nothing, and each submatch list
always has exactly two entries, so the length-2 guard never fires.) -/
def addPidRefs (fs : Fs) (acc : Nat) (pid : Str) : Except GoErr Nat :=
  match fs.read (smapsFilePath pid) with
  | .notFound => .ok acc
  | .ioErr => .error (.smapsRead (smapsFilePath pid))
  | .ok content => sumCaps acc (findAllFields referencedLit content)

/-- The PID loop of `Wss.getReferenced`. -/
def getReferencedLoop (fs : Fs) (acc : Nat) : List Str → Except GoErr Nat
  | [] => .ok acc
  | pid :: rest =>
    match addPidRefs fs acc pid with
    | .error e => .error e
    | .ok acc' => getReferencedLoop fs acc' rest

/-- `Wss.getReferenced`: total referenced kilobytes over all PIDs. -/
def getReferenced (fs : Fs) (pids : List Str) : Except GoErr Nat :=
  getReferencedLoop fs 0 pids

/-- One iteration of `Wss.clearReferenced`'s write loop: open the PID's
clear_refs file for writing -- any open failure skips the PID -- then
write `"1\n"`; a write failure is fatal.  The write goes through a
descriptor opened without truncation, so it overwrites the first two
bytes of the previous content. -/
def writeClearRefs (fs : Fs) (pid : Str) : GoResult Unit :=
  match fs.read (clearRefsFilePath pid) with
  | .ok old =>
    if fs.writeErrPaths.contains (clearRefsFilePath pid) then
      .err (.writeFail (clearRefsFilePath pid)) fs
    else .ok () (fs.write (clearRefsFilePath pid) ("1\n".toList ++ old.drop 2))
  | _ => .ok () fs

/-- The write loop of `Wss.clearReferenced`. -/
def clearLoop : Fs → List Str → GoResult Unit
  | fs, [] => .ok () fs
  | fs, pid :: rest =>
    match writeClearRefs fs pid with
    | .ok _ fs' => clearLoop fs' rest
    | .err e fs' => .err e fs'

/-- `Wss.clearReferenced`: reject a zero reset interval, write `"1\n"` to
every PID's clear_refs file when `Cycles % ResetInterval == 0`, and do
nothing otherwise. -/
def clearReferenced (w : Wss) (pids : List Str) (fs : Fs) : GoResult Unit :=
  if w.ResetInterval = 0 then .err .badResetInterval fs
  else if w.Cycles % w.ResetInterval = 0 then clearLoop fs pids
  else .ok () fs

/-- `Wss.GetStat`: increment the (local copy of the) cycle counter --
in the source this happens first, and the incremented copy is consulted
only by the reset step -- read the PID list, sum referenced kilobytes,
run the reset step, and return the total in bytes. -/
def GetStat (w : Wss) (fs : Fs) : GoResult Nat :=
  match getPids w fs with
  | .error e => .err e fs
  | .ok pids =>
    match getReferenced fs pids with
    | .error e => .err e fs
    | .ok kb =>
      match clearReferenced { w with Cycles := (w.Cycles + 1) % U64 } pids fs with
      | .err e fs' => .err e fs'
      | .ok _ fs' => .ok ((kb * 1024) % U64) fs'

/-- A call `w.GetStat()` as seen by the caller: `GetStat` has a value
receiver in the source, so the method operates on a copy and the caller's
`Wss` variable is unchanged after the call; the second component is the
caller's stored state after the call. -/
def callGetStat (w : Wss) (fs : Fs) : GoResult (Nat × Wss) :=
  match GetStat w fs with
  | .ok r fs' => .ok (r, w) fs'
  | .err e fs' => .err e fs'

/-- `n` successive `GetStat` calls on one stored instance, threading the
stored instance state and the filesystem. -/
def runCalls : Nat → Wss → Fs → GoResult Wss
  | 0, w, fs => .ok w fs
  | n + 1, w, fs =>
    match callGetStat w fs with
    | .ok (_, w') fs' => runCalls n w' fs'
    | .err e fs' => .err e fs'

/-- Modelled from the spec: the collector construction (the
Collector/Manager facade's `GetCollector`, which is not among this
repository's source files) validates the configured reset interval and
rejects a non-positive value with a `ConfigError` before an active `Wss`
estimator bound to the cgroup path is created. -/
def mkWss (path : Str) (resetInterval : Nat) : Except GoErr Wss :=
  if resetInterval = 0 then .error .badResetInterval
  else .ok { CgroupCPUPath := path, Cycles := 0, ResetInterval := resetInterval }

/-! ## machine package: capacity and clock-speed extraction -/

/-- The literal head of `memoryCapacityRegexp`. -/
def memTotalLit : Str := "MemTotal:".toList

/-- The literal head of `swapCapacityRegexp`. -/
def swapTotalLit : Str := "SwapTotal:".toList

/-- `parseCapacity`: capture the first `lit \s*([0-9]+) kB` field of the
text, parse it and convert kilobytes to bytes (`uint64` multiplication
by 1024). -/
def parseCapacity (lit : Str) (b : Str) : Except GoErr Nat :=
  match findFirstField lit b with
  | none => .error .capacityNoMatch
  | some d =>
    match parseUint64 d with
    | none => .error .capacityParse
    | some m => .ok ((m * 1024) % U64)

/-- `GetMachineMemoryCapacity`: read `/proc/meminfo` and extract the
`MemTotal:` field. -/
def GetMachineMemoryCapacity (fs : Fs) : Except GoErr Nat :=
  match fs.read "/proc/meminfo".toList with
  | .ok content => parseCapacity memTotalLit content
  | .notFound => .error (.openFail "/proc/meminfo".toList true)
  | .ioErr => .error (.openFail "/proc/meminfo".toList false)

/-- Is `pat` a contiguous substring of `cs` (`strings.Contains`)? -/
def containsSub (pat : Str) : Str → Bool
  | [] => (stripPrefixL pat []).isSome
  | c :: rest => (stripPrefixL pat (c :: rest)).isSome || containsSub pat rest

/-- The architecture gate of `GetClockSpeed`:
`isMips64() || isSystemZ() || isAArch64() || isArm32() || isRiscv64()`,
each a substring test on the uname machine string. -/
def isFreqLessArch (arch : Str) : Bool :=
  containsSub "mips64".toList arch || containsSub "390".toList arch ||
  containsSub "aarch64".toList arch || containsSub "arm".toList arch ||
  containsSub "riscv64".toList arch

/-- `fmt.Sscanf(s, "%d", &u)` for a `uint64` target: skip leading blanks,
then a nonempty digit run whose value fits in 64 bits. -/
def sscanfUint (s : Str) : Option Nat :=
  let t := s.dropWhile (fun c => c = ' ' || c = '\t')
  let d := t.takeWhile Char.isDigit
  if d = [] then none
  else if digitsVal d < U64 then some (digitsVal d) else none

/-- Try to match `(?:cpu MHz|clock)\s*:\s*([0-9]+\.[0-9]+)(?:MHz)?` at
the head of `cs`; return the capture.  The two alternatives differ in
their second character, so the alternation is deterministic, and the
optional trailing `MHz` never affects the capture. -/
def tryClockMatch (cs : Str) : Option Str :=
  match
    match stripPrefixL "cpu MHz".toList cs with
    | some r => some r
    | none => stripPrefixL "clock".toList cs
  with
  | none => none
  | some cs1 =>
    match cs1.dropWhile isSpaceRE2 with
    | ':' :: cs3 =>
      let cs4 := cs3.dropWhile isSpaceRE2
      let d1 := cs4.takeWhile Char.isDigit
      if d1 = [] then none
      else
        match cs4.dropWhile Char.isDigit with
        | '.' :: cs5 =>
          let d2 := cs5.takeWhile Char.isDigit
          if d2 = [] then none else some (d1 ++ '.' :: d2)
        | _ => none
    | _ => none

/-- `cpuClockSpeedMHz.FindSubmatch`: the capture of the leftmost match. -/
def findClockCapture : Str → Option Str
  | [] => none
  | c :: rest =>
    match tryClockMatch (c :: rest) with
    | some d => some d
    | none => findClockCapture rest

/-- `GetClockSpeed`, parameterized over the environment: the uname
machine string, the content of the max-frequency sysfs file when it
exists, and the `/proc/cpuinfo` text.  The fallback path's
`strconv.ParseFloat` of the capture followed by multiplication by 1000
and truncation to `uint64` is IEEE-754 `float64` arithmetic; it is
abstracted as the parameter `floatKHz`, since the claims concern which
source the result is derived from. -/
def GetClockSpeed (floatKHz : Str → Except GoErr Nat) (arch : Str)
    (maxFreq : Option Str) (procInfo : Str) : Except GoErr Nat :=
  if isFreqLessArch arch then .ok 0
  else
    match maxFreq with
    | some content =>
      match sscanfUint content with
      | some v => .ok v
      | none => .error .freqParse
    | none =>
      match findClockCapture procInfo with
      | none => .error .clockDetect
      | some cap => floatKHz cap

/-! ## sysfs package: the kernel port (src/utils/sysfs/sysfs.go) -/

/-- A directory tree: directory path to list of entry names, in the
sorted order `ioutil.ReadDir` reports. -/
abbrev DirFs := List (Str × List Str)

/-- Directory lookup. -/
def lookupDir : DirFs → Str → Option (List Str)
  | [], _ => none
  | (q, es) :: t, p => if q = p then some es else lookupDir t p

/-- The package-level `nodeDir` constant: `/sys/devices/system/node/`. -/
def nodeDir : Str := "/sys/devices/system/node/".toList

/-- `realSysFs.GetHugePagesInfo`: lists the directory
`fmt.Sprintf("%s/hugepages/", nodeDir)` -- the path is built from the
package-level `nodeDir`, not from the `nodePath` argument, which the
function never uses. -/
def GetHugePagesInfo (fs : DirFs) (nodePath : Str) : Except GoErr (List Str) :=
  match lookupDir fs (nodeDir ++ "/hugepages/".toList) with
  | some entries => .ok entries
  | none => .error (.dirMissing (nodeDir ++ "/hugepages/".toList))

/-- One element of a glob pattern: a literal character, `*` (any run of
non-separator characters), or the class `[0-9]`. -/
inductive GlobElem where
  | lit (c : Char)
  | star
  | digitClass
deriving DecidableEq, Repr

/-- Parse a glob pattern covering the forms used by this package
(literals, `*`, and the `[0-9]` class); a malformed class is
`filepath.ErrBadPattern`. -/
def parseGlob : Str → Option (List GlobElem)
  | [] => some []
  | '*' :: rest => (parseGlob rest).map (GlobElem.star :: ·)
  | '[' :: '0' :: '-' :: '9' :: ']' :: rest => (parseGlob rest).map (GlobElem.digitClass :: ·)
  | '[' :: _ => none
  | c :: rest => (parseGlob rest).map (GlobElem.lit c :: ·)

/-- The suffixes of `ds` reachable by consuming a (possibly empty) run of
non-separator characters — the states a `*` element can leave. -/
def starSuffixes : Str → List Str
  | [] => [[]]
  | d :: ds => (d :: ds) :: (if d = '/' then [] else starSuffixes ds)

/-- `filepath.Match` on a parsed pattern. -/
def matchElems : List GlobElem → Str → Bool
  | [], ds => ds.isEmpty
  | .lit c :: es, ds =>
    match ds with
    | [] => false
    | d :: ds' => c = d && matchElems es ds'
  | .digitClass :: es, ds =>
    match ds with
    | [] => false
    | d :: ds' => d.isDigit && matchElems es ds'
  | .star :: es, ds => (starSuffixes ds).any (matchElems es)

/-- The directory part of the glob pattern `nodeDir + "node*[0-9]"`. -/
def nodeDirClean : Str := "/sys/devices/system/node".toList

/-- `filepath.Glob` for a pattern `dir/base`: list `dir` (no matches when
the directory does not exist) and keep the entries matching the base
pattern, joined back onto the directory. -/
def glob (fs : DirFs) (dir : Str) (pat : List GlobElem) : List Str :=
  match lookupDir fs dir with
  | none => []
  | some entries => (entries.filter (matchElems pat)).map (fun n => dir ++ '/' :: n)

/-- `realSysFs.GetNodesPaths`: glob `nodeDir + "node*[0-9]"`;
`filepath.Glob` fails only on a malformed pattern. -/
def GetNodesPaths (fs : DirFs) : Except GoErr (List Str) :=
  match parseGlob "node*[0-9]".toList with
  | none => .error .badPattern
  | some pat => .ok (glob fs nodeDirClean pat)

/-- The parsed form of the `node*[0-9]` pattern. -/
def nodeGlob : List GlobElem :=
  [.lit 'n', .lit 'o', .lit 'd', .lit 'e', .star, .digitClass]

/-! ## Write-effect summary of the reset step

`applyClears` is the filesystem after the succeeding pass of
`clearReferenced`'s write loop: each PID whose clear_refs file can be
opened has `"1\n"` written over the head of its content. -/

/-- The successful effect of one `writeClearRefs` step. -/
def applyClear (fs : Fs) (pid : Str) : Fs :=
  match fs.read (clearRefsFilePath pid) with
  | .ok old => fs.write (clearRefsFilePath pid) ("1\n".toList ++ old.drop 2)
  | _ => fs

/-- The successful effect of the whole write loop. -/
def applyClears (fs : Fs) (pids : List Str) : Fs := pids.foldl applyClear fs

/-! ## Concrete instances used by the closed theorems and witnesses -/

/-- A `Wss` instance as a caller would construct it: counter at 0,
reset interval 3 (the configuration of the package's own tests). -/
def wssC3 : Wss := { CgroupCPUPath := "/cg".toList, Cycles := 0, ResetInterval := 3 }

/-- An smaps text with two `Referenced:` lines, 300 kB and 116 kB. -/
def smapsC3 : Str :=
  ("Rss: 4 kB\nReferenced: 300 kB\nSize: 10 kB\nReferenced: 116 kB\n").toList

/-- A healthy filesystem for the cgroup `/cg` with the single PID 4. -/
def fsC3 : Fs :=
  { files := [(cgroupProcsPath "/cg".toList, "4\n".toList),
              (smapsFilePath "4".toList, smapsC3),
              (clearRefsFilePath "4".toList, "0\n".toList)],
    ioErrPaths := [], writeErrPaths := [] }

/-- A cgroup whose `cgroup.procs` file is present but empty. -/
def fsC4 : Fs :=
  { files := [(cgroupProcsPath "/cg4".toList, [])],
    ioErrPaths := [], writeErrPaths := [] }

/-- The estimator bound to that cgroup. -/
def wssC4 : Wss := { CgroupCPUPath := "/cg4".toList, Cycles := 0, ResetInterval := 3 }

/-- A second empty-procs cgroup, used by the witness of the amended
claim. -/
def fsC4w : Fs :=
  { files := [(cgroupProcsPath "/cg4w".toList, [])],
    ioErrPaths := [], writeErrPaths := [] }

/-- The estimator bound to the second cgroup. -/
def wssC4w : Wss := { CgroupCPUPath := "/cg4w".toList, Cycles := 7, ResetInterval := 2 }

/-- A directory tree in which the global
`/sys/devices/system/node//hugepages/` directory and a node's own
hugepages directory (the layout of `TestGetHugePagesInfo`) hold
different entries. -/
def dirFsC9 : DirFs :=
  [(nodeDir ++ "/hugepages/".toList, ["global-entry".toList]),
   ("./testdata/node0/hugepages".toList,
     ["hugepages-1048576kB".toList, "hugepages-2048kB".toList])]

/-! ## Helper lemmas -/

theorem all_takeWhile (p : Char → Bool) (l : Str) : (l.takeWhile p).all p := by
  induction l with
  | nil => rfl
  | cons c t ih =>
    simp only [List.takeWhile]
    cases h : p c with
    | true => simp [h, ih]
    | false => rfl

theorem tryFieldMatch_digits {lit cs d rem : Str}
    (h : tryFieldMatch lit cs = some (d, rem)) : d ≠ [] ∧ d.all Char.isDigit := by
  unfold tryFieldMatch at h
  split at h
  · exact absurd h (by simp)
  · split at h
    · exact absurd h (by simp)
    · rename_i hne
      split at h
      · exact absurd h (by simp)
      · simp only [Option.some.injEq, Prod.mk.injEq] at h
        exact ⟨h.1 ▸ hne, h.1 ▸ all_takeWhile _ _⟩

theorem mem_findAllFieldsAux {lit : Str} :
    ∀ (fuel : Nat) (cs d : Str), d ∈ findAllFieldsAux lit fuel cs →
      d ≠ [] ∧ d.all Char.isDigit := by
  intro fuel
  induction fuel with
  | zero => intro cs d h; exact absurd h (by simp [findAllFieldsAux])
  | succ n ih =>
    intro cs d h
    match cs with
    | [] => exact absurd h (by simp [findAllFieldsAux])
    | c :: rest =>
      rw [findAllFieldsAux] at h
      split at h
      · rename_i d0 rem hm
        rcases List.mem_cons.mp h with h1 | h1
        · exact h1 ▸ tryFieldMatch_digits hm
        · exact ih rem d h1
      · exact ih rest d h

theorem mem_findAllFields {lit cs d : Str} (h : d ∈ findAllFields lit cs) :
    d ≠ [] ∧ d.all Char.isDigit :=
  mem_findAllFieldsAux cs.length cs d h

theorem parseUint64_digits {d : Str} (hne : d ≠ []) (hdig : d.all Char.isDigit)
    (hlt : digitsVal d < U64) : parseUint64 d = some (digitsVal d) := by
  simp [parseUint64, hne, hdig, hlt]

theorem sumCaps_ok :
    ∀ (caps : List Str) (acc : Nat),
      (∀ d ∈ caps, d ≠ [] ∧ d.all Char.isDigit) →
      acc + (caps.map digitsVal).sum < U64 →
      sumCaps acc caps = .ok (acc + (caps.map digitsVal).sum) := by
  intro caps
  induction caps with
  | nil => intro acc _ _; simp [sumCaps]
  | cons d rest ih =>
    intro acc hd hb
    have hsum : ((d :: rest).map digitsVal).sum
        = digitsVal d + (rest.map digitsVal).sum := by
      simp [List.map_cons, List.sum_cons]
    rw [hsum] at hb
    have h1 := hd d (List.mem_cons_self d rest)
    rw [sumCaps, parseUint64_digits h1.1 h1.2 (by omega)]
    show sumCaps ((acc + digitsVal d) % U64) rest = _
    rw [Nat.mod_eq_of_lt (by omega)]
    rw [ih (acc + digitsVal d) (fun x hx => hd x (List.mem_cons_of_mem d hx)) (by omega)]
    congr 1
    rw [hsum]
    omega

theorem lookupFile_setFile_self (l : List (Str × Str)) (p c : Str) :
    lookupFile (setFile l p c) p = some c := by
  induction l with
  | nil => simp [setFile, lookupFile]
  | cons qd t ih =>
    obtain ⟨q, d⟩ := qd
    by_cases h : q = p
    · simp [setFile, h, lookupFile]
    · simp [setFile, h, lookupFile, ih]

theorem lookupFile_setFile_ne (l : List (Str × Str)) {p q : Str} (c : Str) (h : q ≠ p) :
    lookupFile (setFile l p c) q = lookupFile l q := by
  induction l with
  | nil =>
    show (if p = q then some c else lookupFile [] q) = lookupFile [] q
    rw [if_neg (Ne.symm h)]
  | cons qd t ih =>
    obtain ⟨q', d⟩ := qd
    show lookupFile (if q' = p then (p, c) :: t else (q', d) :: setFile t p c) q = _
    by_cases h' : q' = p
    · rw [if_pos h']
      show (if p = q then some c else lookupFile t q) = if q' = q then some d else lookupFile t q
      rw [if_neg (Ne.symm h), if_neg (fun hq : q' = q => h (hq ▸ h'))]
    · rw [if_neg h']
      show (if q' = q then some d else lookupFile (setFile t p c) q) =
        if q' = q then some d else lookupFile t q
      rw [ih]

theorem read_ok_not_ioErr {fs : Fs} {p c : Str} (h : fs.read p = .ok c) :
    fs.ioErrPaths.contains p = false := by
  cases hcc : fs.ioErrPaths.contains p with
  | false => rfl
  | true =>
    unfold Fs.read at h
    rw [if_pos hcc] at h
    cases h

theorem read_write_self {fs : Fs} {p : Str} (c : Str)
    (h : fs.ioErrPaths.contains p = false) : (fs.write p c).read p = .ok c := by
  unfold Fs.read Fs.write
  simp only [h, Bool.false_eq_true, if_false, lookupFile_setFile_self]

theorem read_write_ne {fs : Fs} {p q : Str} (c : Str) (h : q ≠ p) :
    (fs.write p c).read q = fs.read q := by
  simp only [Fs.read, Fs.write, lookupFile_setFile_ne fs.files c h]

theorem write_writeErrPaths (fs : Fs) (p c : Str) :
    (fs.write p c).writeErrPaths = fs.writeErrPaths := rfl

theorem clearRefsFilePath_inj {a b : Str} (h : clearRefsFilePath a = clearRefsFilePath b) :
    a = b := by
  unfold clearRefsFilePath at h
  rw [List.append_assoc, List.append_assoc] at h
  exact List.append_cancel_right (List.append_cancel_left h)

theorem applyClear_ioErrPaths (fs : Fs) (pid : Str) :
    (applyClear fs pid).ioErrPaths = fs.ioErrPaths := by
  unfold applyClear; split <;> rfl

theorem applyClear_writeErrPaths (fs : Fs) (pid : Str) :
    (applyClear fs pid).writeErrPaths = fs.writeErrPaths := by
  unfold applyClear; split <;> rfl

theorem applyClear_read_ne {q : Str} (fs : Fs) (pid : Str)
    (h : q ≠ clearRefsFilePath pid) : (applyClear fs pid).read q = fs.read q := by
  unfold applyClear
  split
  · exact read_write_ne _ h
  · rfl

theorem applyClear_read_self {fs : Fs} {pid c : Str}
    (h : fs.read (clearRefsFilePath pid) = .ok c) :
    (applyClear fs pid).read (clearRefsFilePath pid) = .ok ("1\n".toList ++ c.drop 2) := by
  unfold applyClear
  rw [h]
  exact read_write_self _ (read_ok_not_ioErr h)

theorem clearLoop_ok :
    ∀ (pids : List Str) (fs : Fs),
      (∀ pid ∈ pids, fs.writeErrPaths.contains (clearRefsFilePath pid) = false) →
      clearLoop fs pids = .ok () (applyClears fs pids) := by
  intro pids
  induction pids with
  | nil => intro fs _; rfl
  | cons p rest ih =>
    intro fs hwr
    have hw : writeClearRefs fs p = .ok () (applyClear fs p) := by
      unfold writeClearRefs applyClear
      cases h : fs.read (clearRefsFilePath p) with
      | ok old =>
        show (if fs.writeErrPaths.contains (clearRefsFilePath p) = true then
            GoResult.err (GoErr.writeFail (clearRefsFilePath p)) fs
          else GoResult.ok () (fs.write (clearRefsFilePath p) ("1\n".toList ++ old.drop 2))) =
          GoResult.ok () (fs.write (clearRefsFilePath p) ("1\n".toList ++ old.drop 2))
        rw [if_neg (by rw [hwr p (List.mem_cons_self p rest)]; exact Bool.false_ne_true)]
      | notFound => rfl
      | ioErr => rfl
    show (match writeClearRefs fs p with
          | .ok _ fs' => clearLoop fs' rest
          | .err e fs' => .err e fs') = _
    rw [hw]
    show clearLoop (applyClear fs p) rest = .ok () (applyClears (applyClear fs p) rest)
    exact ih (applyClear fs p) (fun pid hpid => by
      rw [applyClear_writeErrPaths]; exact hwr pid (List.mem_cons_of_mem p hpid))

theorem applyClears_read_not_mem :
    ∀ (pids : List Str) (fs : Fs) (q : Str),
      (∀ pid ∈ pids, q ≠ clearRefsFilePath pid) →
      (applyClears fs pids).read q = fs.read q := by
  intro pids
  induction pids with
  | nil => intro fs q _; rfl
  | cons p rest ih =>
    intro fs q hq
    show (applyClears (applyClear fs p) rest).read q = fs.read q
    rw [ih (applyClear fs p) q (fun pid hpid => hq pid (List.mem_cons_of_mem p hpid)),
      applyClear_read_ne fs p (hq p (List.mem_cons_self p rest))]

theorem applyClears_read_mem :
    ∀ (pids : List Str) (fs : Fs) (pid c : Str), pid ∈ pids →
      fs.read (clearRefsFilePath pid) = .ok c →
      (applyClears fs pids).read (clearRefsFilePath pid) = .ok ("1\n".toList ++ c.drop 2) := by
  intro pids
  induction pids with
  | nil => intro fs pid c hmem _; exact absurd hmem (List.not_mem_nil pid)
  | cons p rest ih =>
    intro fs pid c hmem hread
    show (applyClears (applyClear fs p) rest).read (clearRefsFilePath pid) = _
    by_cases hp : pid = p
    · subst hp
      have h1 : (applyClear fs pid).read (clearRefsFilePath pid)
          = .ok ("1\n".toList ++ c.drop 2) := applyClear_read_self hread
      by_cases hrest : pid ∈ rest
      · rw [ih (applyClear fs pid) pid ("1\n".toList ++ c.drop 2) hrest h1]
        rfl
      · rw [applyClears_read_not_mem rest (applyClear fs pid) (clearRefsFilePath pid)
          (fun p' hp' => fun hc => hrest ((clearRefsFilePath_inj hc) ▸ hp')), h1]
    · have hne : clearRefsFilePath pid ≠ clearRefsFilePath p :=
        fun hc => hp (clearRefsFilePath_inj hc)
      have hrest : pid ∈ rest := by
        rcases List.mem_cons.mp hmem with h1 | h1
        · exact absurd h1 hp
        · exact h1
      exact ih (applyClear fs p) pid c hrest (by rw [applyClear_read_ne fs p hne, hread])

theorem getPids_ok {w : Wss} {fs : Fs} {content : Str}
    (h : fs.read (cgroupProcsPath w.CgroupCPUPath) = .ok content)
    (hne : scanLines content ≠ []) : getPids w fs = .ok (scanLines content) := by
  unfold getPids
  rw [h]
  show (if scanLines content = [] then _ else _) = _
  rw [if_neg hne]

theorem addPidRefs_ok {fs : Fs} {pid content : Str} (acc : Nat)
    (h : fs.read (smapsFilePath pid) = .ok content) :
    addPidRefs fs acc pid = sumCaps acc (findAllFields referencedLit content) := by
  unfold addPidRefs
  rw [h]

theorem getReferencedLoop_cons (fs : Fs) (acc : Nat) (p : Str) (ps : List Str) :
    getReferencedLoop fs acc (p :: ps) =
      match addPidRefs fs acc p with
      | .error e => .error e
      | .ok a => getReferencedLoop fs a ps := rfl

theorem clearReferenced_fires (w : Wss) (pids : List Str) (fs : Fs)
    (hri : w.ResetInterval ≠ 0) (hmod : w.Cycles % w.ResetInterval = 0) :
    clearReferenced w pids fs = clearLoop fs pids := by
  unfold clearReferenced
  rw [if_neg hri, if_pos hmod]

theorem clearReferenced_skips (w : Wss) (pids : List Str) (fs : Fs)
    (hri : w.ResetInterval ≠ 0) (hmod : w.Cycles % w.ResetInterval ≠ 0) :
    clearReferenced w pids fs = .ok () fs := by
  unfold clearReferenced
  rw [if_neg hri, if_neg hmod]

/-! ## Claim theorems -/

/-- C1: For every `resetInterval > 0` and every PID whose memory-map
summary (smaps) content contains lines matching `Referenced: k kB` whose
kB values sum to `S` (with `S * 1024` representable in 64 bits and
the PID's reset-control file writable), `Wss.GetStat` on the cgroup
holding exactly that PID returns exactly `S * 1024` bytes and no
error. -/
theorem C1_getstat_reports_referenced_sum
    (w : Wss) (fs : Fs) (pid procsContent smapsContent : Str) (S : Nat)
    (hri : w.ResetInterval ≠ 0)
    (hprocs : fs.read (cgroupProcsPath w.CgroupCPUPath) = .ok procsContent)
    (hlines : scanLines procsContent = [pid])
    (hsmaps : fs.read (smapsFilePath pid) = .ok smapsContent)
    (hsum : ((findAllFields referencedLit smapsContent).map digitsVal).sum = S)
    (hbound : S * 1024 < U64)
    (hwr : fs.writeErrPaths.contains (clearRefsFilePath pid) = false) :
    ∃ fs', GetStat w fs = .ok (S * 1024) fs' := by
  have hSle : S ≤ S * 1024 := Nat.le_mul_of_pos_right S (by norm_num)
  have hpids : getPids w fs = .ok [pid] := by rw [getPids_ok hprocs (by rw [hlines]; simp), hlines]
  have hsums : sumCaps 0 (findAllFields referencedLit smapsContent) = .ok S := by
    have h0 := sumCaps_ok (findAllFields referencedLit smapsContent) 0
      (fun d hd => mem_findAllFields hd) (by rw [Nat.zero_add, hsum]; omega)
    rw [Nat.zero_add, hsum] at h0
    exact h0
  have href : getReferenced fs [pid] = .ok S := by
    show getReferencedLoop fs 0 [pid] = .ok S
    rw [getReferencedLoop_cons, addPidRefs_ok 0 hsmaps, hsums]
    rfl
  have hclear : ∃ fs', clearReferenced { w with Cycles := (w.Cycles + 1) % U64 } [pid] fs
      = .ok () fs' := by
    by_cases hmod : ((w.Cycles + 1) % U64) % w.ResetInterval = 0
    · refine ⟨applyClears fs [pid], ?_⟩
      rw [clearReferenced_fires { w with Cycles := (w.Cycles + 1) % U64 } [pid] fs hri hmod]
      exact clearLoop_ok [pid] fs (fun p hp => by
        rw [List.mem_singleton.mp hp]; exact hwr)
    · exact ⟨fs, clearReferenced_skips { w with Cycles := (w.Cycles + 1) % U64 } [pid] fs hri hmod⟩
  obtain ⟨fs', hc⟩ := hclear
  refine ⟨fs', ?_⟩
  unfold GetStat
  rw [hpids]
  show (match getReferenced fs [pid] with
    | .error e => GoResult.err e fs
    | .ok kb =>
      match clearReferenced { w with Cycles := (w.Cycles + 1) % U64 } [pid] fs with
      | .err e fs' => GoResult.err e fs'
      | .ok _ fs' => .ok ((kb * 1024) % U64) fs') = _
  rw [href]
  show (match clearReferenced { w with Cycles := (w.Cycles + 1) % U64 } [pid] fs with
    | .err e fs' => GoResult.err e fs'
    | .ok _ fs' => .ok ((S * 1024) % U64) fs') = _
  rw [hc, Nat.mod_eq_of_lt hbound]

/-- A healthy single-PID filesystem used by the C1 witness: PID 4,
two `Referenced:` lines of 300 kB and 116 kB. -/
def fsC1 : Fs :=
  { files := [(cgroupProcsPath "/cg1".toList, "4\n".toList),
              (smapsFilePath "4".toList,
                ("Rss: 4 kB\nReferenced: 300 kB\nSize: 10 kB\nReferenced: 116 kB\n").toList),
              (clearRefsFilePath "4".toList, "0\n".toList)],
    ioErrPaths := [], writeErrPaths := [] }

/-- The estimator of the C1 witness. -/
def wssC1 : Wss := { CgroupCPUPath := "/cg1".toList, Cycles := 0, ResetInterval := 3 }

/-- Witness for C1 at a concrete input: 300 + 116 = 416 kB, so `GetStat`
returns 416 * 1024 bytes. -/
theorem C1_witness : ∃ fs', GetStat wssC1 fsC1 = .ok (416 * 1024) fs' :=
  C1_getstat_reports_referenced_sum wssC1 fsC1 "4".toList "4\n".toList
    ("Rss: 4 kB\nReferenced: 300 kB\nSize: 10 kB\nReferenced: 116 kB\n").toList 416
    (by decide) (by rfl) (by rfl) (by rfl) (by rfl) (by decide) (by rfl)

/-- C2: With a valid (nonzero) reset interval and writable existing
reset-control files, the reset step `Wss.clearReferenced` writes the
value `1` (the bytes `"1\n"`) to each existing PID reset-control file
exactly when `cycle mod resetInterval == 0`, and writes nothing to any
file on every cycle where `cycle mod resetInterval != 0`. -/
theorem C2_reset_fires_iff_cycle_mod_zero (w : Wss) (pids : List Str) (fs : Fs)
    (hri : w.ResetInterval ≠ 0)
    (hwr : ∀ pid ∈ pids, fs.writeErrPaths.contains (clearRefsFilePath pid) = false) :
    (w.Cycles % w.ResetInterval ≠ 0 → clearReferenced w pids fs = .ok () fs)
    ∧ (w.Cycles % w.ResetInterval = 0 →
        clearReferenced w pids fs = .ok () (applyClears fs pids)
        ∧ (∀ pid ∈ pids, ∀ c, fs.read (clearRefsFilePath pid) = .ok c →
            (applyClears fs pids).read (clearRefsFilePath pid) = .ok ("1\n".toList ++ c.drop 2))
        ∧ (∀ q, (∀ pid ∈ pids, q ≠ clearRefsFilePath pid) →
            (applyClears fs pids).read q = fs.read q)) := by
  constructor
  · intro hmod
    exact clearReferenced_skips w pids fs hri hmod
  · intro hmod
    refine ⟨?_, ?_, ?_⟩
    · rw [clearReferenced_fires w pids fs hri hmod]
      exact clearLoop_ok pids fs hwr
    · intro pid hpid c hc
      exact applyClears_read_mem pids fs pid c hpid hc
    · intro q hq
      exact applyClears_read_not_mem pids fs q hq

/-- Filesystem of the C2 witness: PID 4's reset-control file exists with
content `"0\n"`, PID 6's does not exist. -/
def fsC2 : Fs :=
  { files := [(clearRefsFilePath "4".toList, "0\n".toList)],
    ioErrPaths := [], writeErrPaths := [] }

/-- The PID list of the C2 witness. -/
def pidsC2 : List Str := ["4".toList, "6".toList]

/-- C2 witness state at cycle 1 of a resetInterval-3 estimator. -/
def wssC2a : Wss := { CgroupCPUPath := "/cg2".toList, Cycles := 1, ResetInterval := 3 }

/-- C2 witness state at cycle 3 of a resetInterval-3 estimator. -/
def wssC2b : Wss := { CgroupCPUPath := "/cg2".toList, Cycles := 3, ResetInterval := 3 }

/-- Witness for C2: at cycle 1 nothing is written; at cycle 3 the
existing reset-control file of PID 4 ends up holding `"1\n"`. -/
theorem C2_witness :
    clearReferenced wssC2a pidsC2 fsC2 = .ok () fsC2
    ∧ clearReferenced wssC2b pidsC2 fsC2 = .ok () (applyClears fsC2 pidsC2)
    ∧ (applyClears fsC2 pidsC2).read (clearRefsFilePath "4".toList) = .ok "1\n".toList := by
  refine ⟨?_, ?_, ?_⟩
  · exact (C2_reset_fires_iff_cycle_mod_zero wssC2a pidsC2 fsC2 (by decide) (by decide)).1
      (by decide)
  · exact ((C2_reset_fires_iff_cycle_mod_zero wssC2b pidsC2 fsC2 (by decide) (by decide)).2
      (by decide)).1
  · exact ((C2_reset_fires_iff_cycle_mod_zero wssC2b pidsC2 fsC2 (by decide) (by decide)).2
      (by decide)).2.1 "4".toList (by decide) "0\n".toList (by rfl)

/-- C3: the claim asserts the sampling-cycle counter persists across
repeated `GetStat` calls on one stored instance (after `n` successful
calls the stored counter equals `n`).  The source declares `GetStat`
with a value receiver, so `w.Cycles++` increments a copy: two successful
calls starting from `Cycles = 0` leave the stored counter at 0, not 2
(and the filesystem untouched, because every call runs at in-copy cycle
1 and `1 % 3 ≠ 0`). -/
theorem C3_cycle_counter_not_persisted :
    runCalls 2 wssC3 fsC3 = .ok wssC3 fsC3 ∧ wssC3.Cycles = 0 :=
  ⟨by decide, rfl⟩

/-- C4 counterexample: a successfully-read, empty PID-membership file
makes `GetStat` return an error (`Not found any PID ...`), not a zero
estimate with no error as the claim states. -/
theorem C4_counterexample :
    GetStat wssC4 fsC4 = .err (.noPids "/cg4".toList) fsC4 := by decide

/-- C4 amended: for every cgroup whose PID-membership file is
successfully read and contains no PIDs, `GetStat` returns the
`Not found any PID` error (Go returns the pair `(0, err)`), reads no
smaps file and performs no reset writes (the filesystem is returned
unchanged). -/
theorem C4_amended_empty_pid_list_is_error (w : Wss) (fs : Fs) (content : Str)
    (hread : fs.read (cgroupProcsPath w.CgroupCPUPath) = .ok content)
    (hempty : scanLines content = []) :
    GetStat w fs = .err (.noPids w.CgroupCPUPath) fs := by
  have hpids : getPids w fs = .error (.noPids w.CgroupCPUPath) := by
    unfold getPids
    rw [hread]
    show (if scanLines content = [] then _ else _) = _
    rw [if_pos hempty]
  unfold GetStat
  rw [hpids]

/-- Witness for the amended C4 at a concrete input. -/
theorem C4_witness : GetStat wssC4w fsC4w = .err (.noPids "/cg4w".toList) fsC4w :=
  C4_amended_empty_pid_list_is_error wssC4w fsC4w [] (by rfl) (by rfl)

theorem sumCaps_error :
    ∀ (caps : List Str) (acc : Nat) (e : GoErr),
      sumCaps acc caps = .error e → e = .parseFail := by
  intro caps
  induction caps with
  | nil => intro acc e h; exact absurd h (by simp [sumCaps])
  | cons d rest ih =>
    intro acc e h
    rw [sumCaps] at h
    cases hp : parseUint64 d with
    | none => rw [hp] at h; cases h; rfl
    | some v =>
      rw [hp] at h
      exact ih ((acc + v) % U64) e h

theorem addPidRefs_error {fs : Fs} {acc : Nat} {pid : Str} {e : GoErr}
    (h : addPidRefs fs acc pid = .error e) :
    e = .parseFail ∨ ∃ p, e = .smapsRead p := by
  unfold addPidRefs at h
  cases hr : fs.read (smapsFilePath pid) with
  | ok content =>
    rw [hr] at h
    exact Or.inl (sumCaps_error _ acc e h)
  | notFound => rw [hr] at h; exact absurd h (by simp)
  | ioErr => rw [hr] at h; cases h; exact Or.inr ⟨smapsFilePath pid, rfl⟩

theorem getReferencedLoop_error :
    ∀ (pids : List Str) (fs : Fs) (acc : Nat) (e : GoErr),
      getReferencedLoop fs acc pids = .error e →
      e = .parseFail ∨ ∃ p, e = .smapsRead p := by
  intro pids
  induction pids with
  | nil => intro fs acc e h; exact absurd h (by simp [getReferencedLoop])
  | cons p rest ih =>
    intro fs acc e h
    rw [getReferencedLoop_cons] at h
    cases ha : addPidRefs fs acc p with
    | error e1 => rw [ha] at h; cases h; exact addPidRefs_error ha
    | ok a => rw [ha] at h; exact ih fs a e h

theorem getPids_error {w : Wss} {fs : Fs} {e : GoErr} (h : getPids w fs = .error e) :
    (∃ p b, e = .openFail p b) ∨ e = .noPids w.CgroupCPUPath := by
  unfold getPids at h
  cases hr : fs.read (cgroupProcsPath w.CgroupCPUPath) with
  | ok content =>
    rw [hr] at h
    replace h : (if scanLines content = [] then Except.error (GoErr.noPids w.CgroupCPUPath)
        else Except.ok (scanLines content)) = Except.error e := h
    by_cases hl : scanLines content = []
    · rw [if_pos hl] at h
      cases h
      exact Or.inr rfl
    · rw [if_neg hl] at h
      exact absurd h (by simp)
  | notFound => rw [hr] at h; cases h; exact Or.inl ⟨_, _, rfl⟩
  | ioErr => rw [hr] at h; cases h; exact Or.inl ⟨_, _, rfl⟩

theorem writeClearRefs_error {fs : Fs} {pid : Str} {e : GoErr} {fs' : Fs}
    (h : writeClearRefs fs pid = .err e fs') : ∃ p, e = .writeFail p := by
  unfold writeClearRefs at h
  cases hr : fs.read (clearRefsFilePath pid) with
  | ok old =>
    rw [hr] at h
    replace h : (if fs.writeErrPaths.contains (clearRefsFilePath pid) = true then
        GoResult.err (GoErr.writeFail (clearRefsFilePath pid)) fs
      else GoResult.ok () (fs.write (clearRefsFilePath pid) ("1\n".toList ++ old.drop 2)))
      = GoResult.err e fs' := h
    by_cases hw : fs.writeErrPaths.contains (clearRefsFilePath pid) = true
    · rw [if_pos hw] at h
      cases h
      exact ⟨clearRefsFilePath pid, rfl⟩
    · rw [if_neg hw] at h
      exact absurd h (by simp)
  | notFound => rw [hr] at h; exact absurd h (by simp)
  | ioErr => rw [hr] at h; exact absurd h (by simp)

theorem clearLoop_error :
    ∀ (pids : List Str) (fs : Fs) (e : GoErr) (fs' : Fs),
      clearLoop fs pids = .err e fs' → ∃ p, e = .writeFail p := by
  intro pids
  induction pids with
  | nil => intro fs e fs' h; exact absurd h (by simp [clearLoop])
  | cons p rest ih =>
    intro fs e fs' h
    replace h : (match writeClearRefs fs p with
        | .ok _ fs1 => clearLoop fs1 rest
        | .err e1 fs1 => .err e1 fs1) = GoResult.err e fs' := h
    cases hw : writeClearRefs fs p with
    | ok a fs1 => rw [hw] at h; exact ih fs1 e fs' h
    | err e1 fs1 => rw [hw] at h; cases h; exact writeClearRefs_error hw

theorem clearReferenced_error (w : Wss) (pids : List Str) (fs : Fs) (e : GoErr) (fs' : Fs)
    (hri : w.ResetInterval ≠ 0) (h : clearReferenced w pids fs = .err e fs') :
    ∃ p, e = .writeFail p := by
  unfold clearReferenced at h
  rw [if_neg hri] at h
  by_cases hmod : w.Cycles % w.ResetInterval = 0
  · rw [if_pos hmod] at h
    exact clearLoop_error pids fs e fs' h
  · rw [if_neg hmod] at h
    exact absurd h (by simp)

theorem GetStat_no_badResetInterval (w : Wss) (fs fs' : Fs)
    (hri : w.ResetInterval ≠ 0) : GetStat w fs ≠ .err .badResetInterval fs' := by
  intro h
  unfold GetStat at h
  cases hp : getPids w fs with
  | error e =>
    rw [hp] at h
    cases h
    rcases getPids_error hp with ⟨p, b, hpb⟩ | hnp
    · cases hpb
    · cases hnp
  | ok pids =>
    rw [hp] at h
    replace h : (match getReferenced fs pids with
      | .error e => GoResult.err e fs
      | .ok kb =>
        match clearReferenced { w with Cycles := (w.Cycles + 1) % U64 } pids fs with
        | .err e fs2 => GoResult.err e fs2
        | .ok _ fs2 => GoResult.ok ((kb * 1024) % U64) fs2)
      = GoResult.err .badResetInterval fs' := h
    cases hr : getReferenced fs pids with
    | error e =>
      rw [hr] at h
      cases h
      rcases getReferencedLoop_error pids fs 0 _ hr with hpe | ⟨p, hpe⟩
      · exact GoErr.noConfusion hpe
      · exact GoErr.noConfusion hpe
    | ok kb =>
      rw [hr] at h
      replace h : (match clearReferenced { w with Cycles := (w.Cycles + 1) % U64 } pids fs with
        | .err e fs2 => GoResult.err e fs2
        | .ok _ fs2 => GoResult.ok ((kb * 1024) % U64) fs2)
        = GoResult.err .badResetInterval fs' := h
      cases hc : clearReferenced { w with Cycles := (w.Cycles + 1) % U64 } pids fs with
      | ok a fs2 => rw [hc] at h; exact absurd h (by simp)
      | err e1 fs2 =>
        rw [hc] at h
        cases h
        rcases clearReferenced_error { w with Cycles := (w.Cycles + 1) % U64 } pids fs
          GoErr.badResetInterval fs' hri hc with ⟨p, hpe⟩
        exact GoErr.noConfusion hpe

/-- C5: `mkWss` (the construction-time validation, modelled from the
spec) rejects a non-positive reset interval, and every successfully
constructed instance, at any later point of its life (any stored cycle
count) and over any filesystem, never has a `GetStat` call fail with the
invalid-reset-interval error. -/
theorem C5_constructed_never_fails_on_interval (path : Str) (ri : Nat) (w : Wss)
    (hmk : mkWss path ri = .ok w) :
    ∀ (cyc : Nat) (fs fs' : Fs),
      GetStat { w with Cycles := cyc } fs ≠ .err .badResetInterval fs' := by
  have hri : w.ResetInterval ≠ 0 := by
    unfold mkWss at hmk
    by_cases hz : ri = 0
    · rw [if_pos hz] at hmk
      exact absurd hmk (by simp)
    · rw [if_neg hz] at hmk
      cases hmk
      exact hz
  intro cyc fs fs'
  exact GetStat_no_badResetInterval { w with Cycles := cyc } fs fs' hri

/-- An arbitrary filesystem for the C5 witness. -/
def fsC5 : Fs := { files := [], ioErrPaths := [], writeErrPaths := [] }

/-- Witness for C5: a concretely constructed instance at cycle 5. -/
theorem C5_witness :
    GetStat { ({ CgroupCPUPath := "/cg5".toList, Cycles := 0, ResetInterval := 3 } : Wss)
        with Cycles := 5 } fsC5 ≠ .err .badResetInterval fsC5 :=
  C5_constructed_never_fails_on_interval "/cg5".toList 3
    { CgroupCPUPath := "/cg5".toList, Cycles := 0, ResetInterval := 3 } (by rfl) 5 fsC5 fsC5

theorem addPidRefs_notFound {fs : Fs} {pid : Str} (acc : Nat)
    (h : fs.read (smapsFilePath pid) = .notFound) : addPidRefs fs acc pid = .ok acc := by
  unfold addPidRefs
  rw [h]

theorem addPidRefs_ioErr {fs : Fs} {pid : Str} (acc : Nat)
    (h : fs.read (smapsFilePath pid) = .ioErr) :
    addPidRefs fs acc pid = .error (.smapsRead (smapsFilePath pid)) := by
  unfold addPidRefs
  rw [h]

theorem getReferencedLoop_append :
    ∀ (xs ys : List Str) (fs : Fs) (acc : Nat),
      getReferencedLoop fs acc (xs ++ ys) =
        match getReferencedLoop fs acc xs with
        | .ok a => getReferencedLoop fs a ys
        | .error e => .error e := by
  intro xs ys
  induction xs with
  | nil => intro fs acc; rfl
  | cons p rest ih =>
    intro fs acc
    rw [List.cons_append, getReferencedLoop_cons, getReferencedLoop_cons]
    cases ha : addPidRefs fs acc p with
    | error e => rfl
    | ok a => exact ih fs a

/-- C6: during `Wss.getReferenced`'s per-PID aggregation, a NotFound
outcome when reading one PID's smaps file is skipped for that PID only
(the total over the remaining PIDs is unchanged and no error is raised),
while any other read error aborts with an error that `GetStat`
propagates for the entire call. -/
theorem C6_notfound_skipped_other_read_errors_abort
    (fs : Fs) (pids1 pids2 : List Str) (p : Str) :
    (fs.read (smapsFilePath p) = .notFound →
      getReferenced fs (pids1 ++ p :: pids2) = getReferenced fs (pids1 ++ pids2))
    ∧ (∀ acc, fs.read (smapsFilePath p) = .ioErr →
        getReferencedLoop fs 0 pids1 = .ok acc →
        getReferenced fs (pids1 ++ p :: pids2) = .error (.smapsRead (smapsFilePath p)))
    ∧ (∀ (w : Wss) (pids : List Str) (e : GoErr),
        getPids w fs = .ok pids → getReferenced fs pids = .error e →
        GetStat w fs = .err e fs) := by
  refine ⟨?_, ?_, ?_⟩
  · intro hnf
    unfold getReferenced
    rw [getReferencedLoop_append, getReferencedLoop_append]
    cases h1 : getReferencedLoop fs 0 pids1 with
    | error e => rfl
    | ok a =>
      show getReferencedLoop fs a (p :: pids2) = getReferencedLoop fs a pids2
      rw [getReferencedLoop_cons, addPidRefs_notFound a hnf]
  · intro acc hio hloop
    unfold getReferenced
    rw [getReferencedLoop_append, hloop]
    show getReferencedLoop fs acc (p :: pids2) = _
    rw [getReferencedLoop_cons, addPidRefs_ioErr acc hio]
  · intro w pids e hp hr
    unfold GetStat
    rw [hp]
    show (match getReferenced fs pids with
      | .error e1 => GoResult.err e1 fs
      | .ok kb =>
        match clearReferenced { w with Cycles := (w.Cycles + 1) % U64 } pids fs with
        | .err e1 fs2 => GoResult.err e1 fs2
        | .ok _ fs2 => .ok ((kb * 1024) % U64) fs2) = GoResult.err e fs
    rw [hr]

/-- Filesystem of the C6 witness: PID 4 has a readable smaps file with a
10 kB `Referenced:` line, PID 5's smaps file does not exist, and PID 6's
smaps read fails with a non-NotFound error. -/
def fsC6 : Fs :=
  { files := [(cgroupProcsPath "/cg6".toList, "4\n6\n".toList),
              (smapsFilePath "4".toList, "Referenced: 10 kB\n".toList)],
    ioErrPaths := [smapsFilePath "6".toList], writeErrPaths := [] }

/-- The estimator of the C6 witness. -/
def wssC6 : Wss := { CgroupCPUPath := "/cg6".toList, Cycles := 0, ResetInterval := 3 }

/-- Witness for C6: dropping the missing PID 5 leaves the sum of the
others; the failing PID 6 aborts the whole `GetStat` call. -/
theorem C6_witness :
    getReferenced fsC6 ["4".toList, "5".toList] = getReferenced fsC6 ["4".toList]
    ∧ getReferenced fsC6 ["4".toList, "6".toList]
        = .error (.smapsRead (smapsFilePath "6".toList))
    ∧ GetStat wssC6 fsC6 = .err (.smapsRead (smapsFilePath "6".toList)) fsC6 := by
  refine ⟨?_, ?_, ?_⟩
  · exact (C6_notfound_skipped_other_read_errors_abort fsC6 ["4".toList] [] "5".toList).1
      (by rfl)
  · exact (C6_notfound_skipped_other_read_errors_abort fsC6 ["4".toList] [] "6".toList).2.1
      10 (by rfl) (by rfl)
  · exact (C6_notfound_skipped_other_read_errors_abort fsC6 [] [] "6".toList).2.2
      wssC6 ["4".toList, "6".toList] (.smapsRead (smapsFilePath "6".toList))
      (by rfl) (by rfl)

theorem findFirstField_digits {lit : Str} :
    ∀ (cs d : Str), findFirstField lit cs = some d → d ≠ [] ∧ d.all Char.isDigit := by
  intro cs
  induction cs with
  | nil => intro d h; exact absurd h (by simp [findFirstField])
  | cons c rest ih =>
    intro d h
    rw [findFirstField] at h
    cases hm : tryFieldMatch lit (c :: rest) with
    | some pr =>
      obtain ⟨d0, rem⟩ := pr
      rw [hm] at h
      cases h
      exact tryFieldMatch_digits hm
    | none => rw [hm] at h; exact ih d h

/-- C7: memory-capacity extraction (`GetMachineMemoryCapacity` via
`parseCapacity`) captures the first `MemTotal:` integer-kB field of the
meminfo text and returns that value multiplied by 1024 (whenever the
product is representable in 64 bits), and fails with an error when the
pattern is absent from the text. -/
theorem C7_memtotal_capacity_extraction (fs : Fs) (b : Str)
    (hread : fs.read "/proc/meminfo".toList = .ok b) :
    (∀ d, findFirstField memTotalLit b = some d → digitsVal d * 1024 < U64 →
      GetMachineMemoryCapacity fs = .ok (digitsVal d * 1024))
    ∧ (findFirstField memTotalLit b = none →
      GetMachineMemoryCapacity fs = .error .capacityNoMatch) := by
  have hgm : GetMachineMemoryCapacity fs = parseCapacity memTotalLit b := by
    unfold GetMachineMemoryCapacity
    rw [hread]
  constructor
  · intro d hd hlt
    have hsh := findFirstField_digits b d hd
    have hdv : digitsVal d < U64 :=
      lt_of_le_of_lt (Nat.le_mul_of_pos_right _ (by norm_num)) hlt
    rw [hgm]
    unfold parseCapacity
    rw [hd]
    show (match parseUint64 d with
      | none => Except.error GoErr.capacityParse
      | some m => Except.ok ((m * 1024) % U64)) = _
    rw [parseUint64_digits hsh.1 hsh.2 hdv]
    show Except.ok ((digitsVal d * 1024) % U64) = _
    rw [Nat.mod_eq_of_lt hlt]
  · intro hnone
    rw [hgm]
    unfold parseCapacity
    rw [hnone]

/-- Filesystem of the C7 witness, holding the meminfo line of the
repository's sysfs test data. -/
def fsC7 : Fs :=
  { files := [("/proc/meminfo".toList,
      "MemTotal:       32817192 kB\nSwapTotal:       999 kB\n".toList)],
    ioErrPaths := [], writeErrPaths := [] }

/-- A meminfo text with no `MemTotal:` field. -/
def fsC7absent : Fs :=
  { files := [("/proc/meminfo".toList, "SwapTotal:       999 kB\n".toList)],
    ioErrPaths := [], writeErrPaths := [] }

/-- Witness for C7: `MemTotal: 32817192 kB` yields 33604804608 bytes;
a text without the pattern yields the match error. -/
theorem C7_witness :
    GetMachineMemoryCapacity fsC7 = .ok 33604804608
    ∧ GetMachineMemoryCapacity fsC7absent = .error .capacityNoMatch := by
  constructor
  · have h := (C7_memtotal_capacity_extraction fsC7
      "MemTotal:       32817192 kB\nSwapTotal:       999 kB\n".toList (by rfl)).1
      "32817192".toList (by rfl) (by decide)
    exact h
  · exact (C7_memtotal_capacity_extraction fsC7absent
      "SwapTotal:       999 kB\n".toList (by rfl)).2 (by rfl)

/-- C8: `GetClockSpeed` returns 0 with no error for every input on an
architecture of the known frequency-less set; otherwise, whenever the
max-frequency file is present (and parseable) its parsed kHz value is
returned, and the value derived from the cpu-info text (via the MHz→kHz
float conversion, abstracted as `floatKHz`) is returned only when that
file is absent. -/
theorem C8_clock_speed_source_selection (floatKHz : Str → Except GoErr Nat) (arch : Str)
    (maxFreq : Option Str) (procInfo : Str) :
    (isFreqLessArch arch = true →
      GetClockSpeed floatKHz arch maxFreq procInfo = .ok 0)
    ∧ (∀ content v, isFreqLessArch arch = false → maxFreq = some content →
        sscanfUint content = some v →
        GetClockSpeed floatKHz arch maxFreq procInfo = .ok v)
    ∧ (∀ cap, isFreqLessArch arch = false → maxFreq = none →
        findClockCapture procInfo = some cap →
        GetClockSpeed floatKHz arch maxFreq procInfo = floatKHz cap) := by
  refine ⟨?_, ?_, ?_⟩
  · intro hf
    unfold GetClockSpeed
    rw [if_pos hf]
  · intro content v hf hm hs
    unfold GetClockSpeed
    rw [if_neg (by rw [hf]; exact Bool.false_ne_true), hm]
    show (match sscanfUint content with
      | some v1 => Except.ok v1
      | none => Except.error GoErr.freqParse) = _
    rw [hs]
  · intro cap hf hm hc
    unfold GetClockSpeed
    rw [if_neg (by rw [hf]; exact Bool.false_ne_true), hm]
    show (match findClockCapture procInfo with
      | none => Except.error GoErr.clockDetect
      | some c => floatKHz c) = _
    rw [hc]

/-- Witness for C8: a frequency-less architecture returns 0 even with
both sources present; with both present on x86_64 the max-frequency file
wins; with the file absent the cpu-info-derived value is used. -/
theorem C8_witness :
    GetClockSpeed (fun _ => .ok 0) "aarch64".toList (some "3200000\n".toList)
      "cpu MHz\t: 2300.000\n".toList = .ok 0
    ∧ GetClockSpeed (fun _ => .ok 0) "x86_64".toList (some "3200000\n".toList)
      "cpu MHz\t: 2300.000\n".toList = .ok 3200000
    ∧ GetClockSpeed (fun _ => .ok 42) "x86_64".toList none
      "cpu MHz\t: 2300.000\n".toList = .ok 42 := by
  refine ⟨?_, ?_, ?_⟩
  · exact (C8_clock_speed_source_selection (fun _ => .ok 0) "aarch64".toList
      (some "3200000\n".toList) "cpu MHz\t: 2300.000\n".toList).1 (by decide)
  · exact (C8_clock_speed_source_selection (fun _ => .ok 0) "x86_64".toList
      (some "3200000\n".toList) "cpu MHz\t: 2300.000\n".toList).2.1
      "3200000\n".toList 3200000 (by decide) rfl (by decide)
  · exact (C8_clock_speed_source_selection (fun _ => .ok 42) "x86_64".toList
      none "cpu MHz\t: 2300.000\n".toList).2.2
      "2300.000".toList (by decide) rfl (by decide)

/-- C9: the claim asserts `GetHugePagesInfo` lists the hugepage-type
directory entries of the given node's own directory.  The source builds
the listed path from the package-level `nodeDir` constant and never uses
its `nodePath` argument: the result is identical for every argument, and
on a tree shaped like the package's test data it returns the global
directory's entries rather than the node's own. -/
theorem C9_hugepages_listing_ignores_node_path :
    (∀ (fs : DirFs) (p q : Str), GetHugePagesInfo fs p = GetHugePagesInfo fs q)
    ∧ GetHugePagesInfo dirFsC9 "./testdata/node0/hugepages".toList
        = .ok ["global-entry".toList]
    ∧ lookupDir dirFsC9 "./testdata/node0/hugepages".toList
        = some ["hugepages-1048576kB".toList, "hugepages-2048kB".toList] :=
  ⟨fun _ _ _ => rfl, by rfl, by rfl⟩

theorem parseGlob_node_pattern : parseGlob "node*[0-9]".toList = some nodeGlob := rfl

/-- C10: `GetNodesPaths` never returns an error (its fixed glob pattern
is well-formed), and when the kernel node directory does not exist or
contains no entry matching `node*[0-9]`, it returns an empty list with
no error. -/
theorem C10_nodes_paths_absent_is_empty_ok (fs : DirFs) :
    (∃ l, GetNodesPaths fs = .ok l)
    ∧ (lookupDir fs nodeDirClean = none → GetNodesPaths fs = .ok [])
    ∧ (∀ entries, lookupDir fs nodeDirClean = some entries →
        (∀ n ∈ entries, matchElems nodeGlob n = false) →
        GetNodesPaths fs = .ok []) := by
  have hg : GetNodesPaths fs = .ok (glob fs nodeDirClean nodeGlob) := rfl
  refine ⟨⟨glob fs nodeDirClean nodeGlob, hg⟩, ?_, ?_⟩
  · intro hnone
    rw [hg]
    unfold glob
    rw [hnone]
  · intro entries hsome hnomatch
    rw [hg]
    unfold glob
    rw [hsome]
    show Except.ok ((entries.filter (matchElems nodeGlob)).map
      (fun n => nodeDirClean ++ '/' :: n)) = _
    rw [List.filter_eq_nil_iff.mpr (fun a ha => by
      rw [hnomatch a ha]; exact Bool.false_ne_true)]
    rfl

/-- Witness for C10: the missing-directory case and a directory whose
entries match nothing both yield an empty, error-free result. -/
theorem C10_witness :
    GetNodesPaths [] = .ok []
    ∧ GetNodesPaths [(nodeDirClean, ["cpu0".toList, "nodeX".toList])] = .ok [] :=
  ⟨(C10_nodes_paths_absent_is_empty_ok []).2.1 rfl,
   (C10_nodes_paths_absent_is_empty_ok [(nodeDirClean, ["cpu0".toList, "nodeX".toList])]).2.2
     ["cpu0".toList, "nodeX".toList] rfl (by decide)⟩
